import Mathlib

/-!
Shallow embedding of `src/randlov1998/environment.py` (the Randlov 1998
bicycle-balancing environment) over the real numbers.  Python floats are
modelled as elements of `ℝ`; every numpy function used by the source
(`sin`, `cos`, `tan`, `sqrt`, `arcsin`, `arctan`, `sign`, `clip`) is
modelled by the corresponding Mathlib real function.  Division by zero is
total in Lean (`x / 0 = 0`), so well-definedness of the float program is
captured separately by the predicate `stepDefined`, which records, per
division/arcsin site of `Environment.step`, that the denominator of a
taken branch is nonzero (resp. the `arcsin` argument is in `[-1, 1]`).
-/

namespace Environment

noncomputable section

/-- Integration time step (`time_step = 0.01`). -/
def time_step : ℝ := 0.01

/-- Gravity (`g = 9.82`). -/
def g : ℝ := 9.82

/-- Horizontal distance front-wheel contact to centre of mass (`c = 0.66`). -/
def c : ℝ := 0.66

/-- Vertical distance rider centre of mass to bicycle seat (`dCM = 0.30`). -/
def dCM : ℝ := 0.30

/-- Height of the bicycle centre of mass (`h = 0.94`). -/
def h : ℝ := 0.94

/-- Wheelbase (`L = 1.11`). -/
def L : ℝ := 1.11

/-- Wheel radius (`r = 0.34`). -/
def r : ℝ := 0.34

/-- Mass of the bicycle (`Mc = 15.0`). -/
def Mc : ℝ := 15.0

/-- Mass of a wheel (`Md = 1.7`). -/
def Md : ℝ := 1.7

/-- Mass of the rider (`Mp = 60.0`). -/
def Mp : ℝ := 60.0

/-- Forward velocity, 10 km/h in m/s (`v = 10.0 * 1000.0 / 3600.0`). -/
def v : ℝ := 10.0 * 1000.0 / 3600.0

/-- Combined mass (`M = Mc + Mp`). -/
def M : ℝ := Mc + Mp

/-- Moment of inertia (`Idc = Md * r**2`). -/
def Idc : ℝ := Md * r ^ 2

/-- Moment of inertia (`Idv = 1.5 * Md * r**2`). -/
def Idv : ℝ := 1.5 * Md * r ^ 2

/-- Moment of inertia (`Idl = 0.5 * Md * r**2`). -/
def Idl : ℝ := 0.5 * Md * r ^ 2

/-- Total moment of inertia (`Itot = 13/3 * Mc * h**2 + Mp * (h + dCM)**2`). -/
def Itot : ℝ := 13.0 / 3.0 * Mc * h ^ 2 + Mp * (h + dCM) ^ 2

/-- Wheel angular velocity (`sigmad = v / r`). -/
def sigmad : ℝ := v / r

/-- Model of `np.sign`: 1 for positive, -1 for negative, 0 at zero. -/
def sign (x : ℝ) : ℝ := if 0 < x then 1 else if x < 0 then -1 else 0

/-- Model of `np.clip(x, lo, hi) = min(hi, max(x, lo))`. -/
def clip (x lo hi : ℝ) : ℝ := min hi (max lo x)

/-- The sensor vector of the environment, `self.sensors`:
`[theta, thetad, omega, omegad, omegadd, xf, yf, xb, yb, psi, psig]`. -/
structure StateVector where
  theta : ℝ
  thetad : ℝ
  omega : ℝ
  omegad : ℝ
  omegadd : ℝ
  xf : ℝ
  yf : ℝ
  xb : ℝ
  yb : ℝ
  psi : ℝ
  psig : ℝ

/-- Front-wheel turning radius `rf` (with the `theta == 0` substitution `1e8`). -/
def rf (theta : ℝ) : ℝ :=
  if theta = 0 then 1e8 else L / |Real.sin theta|

/-- Rear-wheel turning radius `rb` (with the `theta == 0` substitution `1e8`). -/
def rb (theta : ℝ) : ℝ :=
  if theta = 0 then 1e8 else L / |Real.tan theta|

/-- Centre-of-mass turning radius `rCM` (with the `theta == 0` substitution `1e8`). -/
def rCM (theta : ℝ) : ℝ :=
  if theta = 0 then 1e8
  else Real.sqrt ((L - c) ^ 2 + L ^ 2 / Real.tan theta ^ 2)

/-- Total lean angle `phi = omega + arctan(d / h)`. -/
def phi (omega d : ℝ) : ℝ := omega + Real.arctan (d / h)

/-- Roll angular acceleration `omegadd`, freshly computed each tick from the
pre-update `theta`, `thetad`, `omega` and the lean action `d`. -/
def omegadd (theta thetad omega d : ℝ) : ℝ :=
  1 / Itot * (M * h * g * Real.sin (phi omega d)
    - Real.cos (phi omega d) * (Idc * sigmad * thetad
      + sign theta * v ^ 2 * (Md * r * (1 / rf theta + 1 / rb theta)
        + M * h / rCM theta)))

/-- Handlebar angular acceleration `thetadd = (T - Idv * sigmad * omegad) / Idl`. -/
def thetadd (omegad T : ℝ) : ℝ := (T - Idv * sigmad * omegad) / Idl

/-- Euler update `omegad += omegadd * time_step` (uses the fresh `omegadd`). -/
def omegadNew (s : StateVector) (d : ℝ) : ℝ :=
  s.omegad + omegadd s.theta s.thetad s.omega d * time_step

/-- Euler update `omega += omegad * time_step` (uses the updated `omegad`). -/
def omegaNew (s : StateVector) (d : ℝ) : ℝ :=
  s.omega + omegadNew s d * time_step

/-- Euler update `thetad += thetadd * time_step`. -/
def thetadNew (s : StateVector) (T : ℝ) : ℝ :=
  s.thetad + thetadd s.omegad T * time_step

/-- Euler update `theta += thetad * time_step` before clamping
(uses the updated `thetad`). -/
def thetaRaw (s : StateVector) (T : ℝ) : ℝ :=
  s.theta + thetadNew s T * time_step

/-- The stored handlebar angle: `theta = np.clip(theta, -1.3963, 1.3963)`. -/
def thetaNew (s : StateVector) (T : ℝ) : ℝ :=
  clip (thetaRaw s T) (-1.3963) 1.3963

/-- Raw front-wheel arcsin argument `front_temp = v * time_step / (2 * rf)`;
`rf` is computed from the pre-update `theta`. -/
def front_temp0 (s : StateVector) : ℝ := v * time_step / (2 * rf s.theta)

/-- Guarded front-wheel angle correction: `sign(psi + theta) * pi/2` when the
argument would leave the arcsin domain, else `sign(psi + theta) * arcsin(...)`.
Here `theta` is the freshly clamped value and `psi` the pre-update heading. -/
def front_temp (s : StateVector) (T : ℝ) : ℝ :=
  if front_temp0 s > 1 then sign (s.psi + thetaNew s T) * (0.5 * Real.pi)
  else sign (s.psi + thetaNew s T) * Real.arcsin (front_temp0 s)

/-- New front-wheel contact `xf += v * time_step * -sin(psi + theta + front_temp)`. -/
def xfNew (s : StateVector) (T : ℝ) : ℝ :=
  s.xf + v * time_step * (-Real.sin (s.psi + thetaNew s T + front_temp s T))

/-- New front-wheel contact `yf += v * time_step * cos(psi + theta + front_temp)`. -/
def yfNew (s : StateVector) (T : ℝ) : ℝ :=
  s.yf + v * time_step * Real.cos (s.psi + thetaNew s T + front_temp s T)

/-- Raw rear-wheel arcsin argument `back_temp = v * time_step / (2 * rb)`. -/
def back_temp0 (s : StateVector) : ℝ := v * time_step / (2 * rb s.theta)

/-- Guarded rear-wheel angle correction, using `sign(psi)` alone. -/
def back_temp (s : StateVector) : ℝ :=
  if back_temp0 s > 1 then sign s.psi * (0.5 * Real.pi)
  else sign s.psi * Real.arcsin (back_temp0 s)

/-- New rear-wheel contact `xb += v * time_step * -sin(psi + back_temp)`,
before drift correction. -/
def xbMoved (s : StateVector) : ℝ :=
  s.xb + v * time_step * (-Real.sin (s.psi + back_temp s))

/-- New rear-wheel contact `yb += v * time_step * cos(psi + back_temp)`,
before drift correction. -/
def ybMoved (s : StateVector) : ℝ :=
  s.yb + v * time_step * Real.cos (s.psi + back_temp s)

/-- Wheelbase after the position updates:
`current_wheelbase = sqrt((xf - xb)**2 + (yf - yb)**2)`. -/
def current_wheelbase (s : StateVector) (T : ℝ) : ℝ :=
  Real.sqrt ((xfNew s T - xbMoved s) ^ 2 + (yfNew s T - ybMoved s) ^ 2)

/-- Drift-corrected rear contact x:
`if |current_wheelbase - L| > 0.01 then xb += (xb - xf) * (L / current_wheelbase - 1)`. -/
def xbNew (s : StateVector) (T : ℝ) : ℝ :=
  if |current_wheelbase s T - L| > 0.01 then
    xbMoved s + (xbMoved s - xfNew s T) * (L / current_wheelbase s T - 1)
  else xbMoved s

/-- Drift-corrected rear contact y. -/
def ybNew (s : StateVector) (T : ℝ) : ℝ :=
  if |current_wheelbase s T - L| > 0.01 then
    ybMoved s + (ybMoved s - yfNew s T) * (L / current_wheelbase s T - 1)
  else ybMoved s

/-- Heading numerator `delta_y = yf - yb` (corrected rear point). -/
def delta_y (s : StateVector) (T : ℝ) : ℝ := yfNew s T - ybNew s T

/-- New heading `psi`, the two-branch arctan construction of the source. -/
def psiNew (s : StateVector) (T : ℝ) : ℝ :=
  if xfNew s T = xbNew s T ∧ delta_y s T < 0 then Real.pi
  else if delta_y s T > 0 then
    Real.arctan ((xbNew s T - xfNew s T) / delta_y s T)
  else
    sign (xbNew s T - xfNew s T) * (0.5 * Real.pi)
      - Real.arctan (delta_y s T / (xbNew s T - xfNew s T))

/-- Goal delta `delta_yg = y_goal - yb` (corrected rear point). -/
def delta_yg (yg : ℝ) (s : StateVector) (T : ℝ) : ℝ := yg - ybNew s T

/-- New goal angle `psig`.  Note the inner branch tests `delta_y > 0`
(front-rear delta), exactly as the source does, while the numerators use the
goal deltas. -/
def psigNew (xg yg : ℝ) (s : StateVector) (T : ℝ) : ℝ :=
  if xg = xbNew s T ∧ delta_yg yg s T < 0 then psiNew s T - Real.pi
  else if delta_y s T > 0 then
    psiNew s T - Real.arctan ((xbNew s T - xg) / delta_yg yg s T)
  else
    psiNew s T - (sign (xbNew s T - xg) * (0.5 * Real.pi)
      - Real.arctan (delta_yg yg s T / (xbNew s T - xg)))

/-- One call of `Environment.step` with goal `(xg, yg)` and action `(T, d)`:
the new sensor vector.  The incoming `omegadd` field is unpacked to `_` in the
source and never read; correspondingly no definition above mentions it. -/
def step (xg yg : ℝ) (s : StateVector) (T d : ℝ) : StateVector where
  theta := thetaNew s T
  thetad := thetadNew s T
  omega := omegaNew s d
  omegad := omegadNew s d
  omegadd := omegadd s.theta s.thetad s.omega d
  xf := xfNew s T
  yf := yfNew s T
  xb := xbNew s T
  yb := ybNew s T
  psi := psiNew s T
  psig := psigNew xg yg s T

/-- Common tail of `Environment.reset`: both branches set
`thetad = omegad = omegadd = 0` and compute `psi`/`psig` from the geometry. -/
def resetState (theta omega xf yf xb yb xg yg : ℝ) : StateVector where
  theta := theta
  thetad := 0
  omega := omega
  omegad := 0
  omegadd := 0
  xf := xf
  yf := yf
  xb := xb
  yb := yb
  psi := Real.arctan ((xb - xf) / (yf - yb))
  psig := Real.arctan ((xb - xf) / (yf - yb))
    - Real.arctan ((xb - xg) / (yg - yb))

/-- The deterministic branch of `reset` (`randomInitState` false):
everything zero except `yf = L`. -/
def resetDet (xg yg : ℝ) : StateVector :=
  resetState 0 0 0 L 0 0 xg yg

/-- The randomized branch of `reset`, parametrized by the random draws:
`n1`, `n2` are the two standard-normal draws and `u` the uniform `[0,1)` draw,
so `theta = n1 * pi/180`, `omega = n2 * pi/180`, `xb = yb = 0`,
`xf = xb + (u*L - 0.5*L)` and `yf = sqrt(L^2 - (xf - xb)^2) + yb`. -/
def resetRand (n1 n2 u xg yg : ℝ) : StateVector :=
  resetState (n1 * Real.pi / 180) (n2 * Real.pi / 180)
    (0 + (u * L - 0.5 * L))
    (Real.sqrt (L ^ 2 - ((0 + (u * L - 0.5 * L)) - 0) ^ 2) + 0)
    0 0 xg yg

/-- The environment state: the sensor vector plus the four wheel-contact
trajectory history lists. -/
structure EnvState where
  sensors : StateVector
  xfhist : List ℝ
  yfhist : List ℝ
  xbhist : List ℝ
  ybhist : List ℝ

/-- `Environment.reset` with randomization disabled: the deterministic sensor
vector, and all four history lists set to `[]`. -/
def resetEnv (xg yg : ℝ) : EnvState where
  sensors := resetDet xg yg
  xfhist := []
  yfhist := []
  xbhist := []
  ybhist := []

/-- Well-definedness of one call of `step` under float semantics: at every
division site of the source the denominator of the branch actually taken is
nonzero, and every `arcsin` is applied inside `[-1, 1]`. -/
def stepDefined (xg yg : ℝ) (s : StateVector) (T _d : ℝ) : Prop :=
  (s.theta ≠ 0 → Real.sin s.theta ≠ 0 ∧ Real.tan s.theta ≠ 0)
  ∧ h ≠ 0 ∧ Itot ≠ 0 ∧ Idl ≠ 0
  ∧ rf s.theta ≠ 0 ∧ rb s.theta ≠ 0 ∧ rCM s.theta ≠ 0
  ∧ (¬ front_temp0 s > 1 → -1 ≤ front_temp0 s ∧ front_temp0 s ≤ 1)
  ∧ (¬ back_temp0 s > 1 → -1 ≤ back_temp0 s ∧ back_temp0 s ≤ 1)
  ∧ (|current_wheelbase s T - L| > 0.01 → current_wheelbase s T ≠ 0)
  ∧ (¬ (xfNew s T = xbNew s T ∧ delta_y s T < 0) → ¬ delta_y s T > 0 →
      xbNew s T - xfNew s T ≠ 0)
  ∧ (¬ (xg = xbNew s T ∧ delta_yg yg s T < 0) →
      (delta_y s T > 0 → delta_yg yg s T ≠ 0)
      ∧ (¬ delta_y s T > 0 → xbNew s T - xg ≠ 0))

/-- Clamping bounds: `clip x lo hi` lies within `[lo, hi]` when `lo ≤ hi`. -/
lemma abs_clip_le {x b : ℝ} (hb : 0 ≤ b) : |clip x (-b) b| ≤ b := by
  unfold clip
  rw [abs_le]
  constructor
  · exact le_min (by linarith) (le_max_left _ _)
  · exact min_le_left _ _

/-- Clamping at the upper bound. -/
lemma clip_eq_hi {x b : ℝ} (hb : 0 ≤ b) (hx : b ≤ x) : clip x (-b) b = b := by
  unfold clip
  rw [max_eq_right (by linarith), min_eq_left hx]

/-- Clamping at the lower bound. -/
lemma clip_eq_lo {x b : ℝ} (hb : 0 ≤ b) (hx : x ≤ -b) : clip x (-b) b = -b := by
  unfold clip
  rw [max_eq_left hx, min_eq_right (by linarith)]

/-- C2: after every `step` the stored handlebar angle satisfies
`|theta| ≤ 1.3963`; when the Euler update would overshoot the bound the stored
value is exactly `1.3963` (resp. `-1.3963`); and the turning-radius
computation applied to the stored field reads exactly the clamped value,
never the raw overshoot. -/
theorem theta_clamp_invariant (xg yg : ℝ) (s : StateVector) (T d : ℝ) :
    |(step xg yg s T d).theta| ≤ 1.3963
    ∧ (1.3963 ≤ thetaRaw s T → (step xg yg s T d).theta = 1.3963)
    ∧ (thetaRaw s T ≤ -1.3963 → (step xg yg s T d).theta = -1.3963)
    ∧ rf (step xg yg s T d).theta = rf (clip (thetaRaw s T) (-1.3963) 1.3963) := by
  refine ⟨?_, ?_, ?_, rfl⟩
  · exact abs_clip_le (by norm_num)
  · intro hx
    exact clip_eq_hi (by norm_num) hx
  · intro hx
    exact clip_eq_lo (by norm_num) hx

/-- C4: `step` integrates in the fixed order `omegad`, `omega`, `thetad`,
`theta`: `omega` is advanced with the already-updated `omegad` of the same
tick, and `theta` with the already-updated `thetad` of the same tick (then
clamped). -/
theorem euler_update_order (xg yg : ℝ) (s : StateVector) (T d : ℝ) :
    (step xg yg s T d).omegad
        = s.omegad + omegadd s.theta s.thetad s.omega d * time_step
    ∧ (step xg yg s T d).omega
        = s.omega + (step xg yg s T d).omegad * time_step
    ∧ (step xg yg s T d).thetad
        = s.thetad + thetadd s.omegad T * time_step
    ∧ (step xg yg s T d).theta
        = clip (s.theta + (step xg yg s T d).thetad * time_step)
            (-1.3963) 1.3963 :=
  ⟨rfl, rfl, rfl, rfl⟩

/-- C7: with randomization disabled, `reset()` followed by `sensors()` yields
exactly `theta = thetad = omega = omegad = omegadd = 0`, `xf = 0`, `yf = L`,
`xb = 0`, `yb = 0`, and all four trajectory history sequences are empty. -/
theorem reset_deterministic_state (xg yg : ℝ) :
    (resetEnv xg yg).sensors.theta = 0
    ∧ (resetEnv xg yg).sensors.thetad = 0
    ∧ (resetEnv xg yg).sensors.omega = 0
    ∧ (resetEnv xg yg).sensors.omegad = 0
    ∧ (resetEnv xg yg).sensors.omegadd = 0
    ∧ (resetEnv xg yg).sensors.xf = 0
    ∧ (resetEnv xg yg).sensors.yf = L
    ∧ (resetEnv xg yg).sensors.xb = 0
    ∧ (resetEnv xg yg).sensors.yb = 0
    ∧ (resetEnv xg yg).xfhist = []
    ∧ (resetEnv xg yg).yfhist = []
    ∧ (resetEnv xg yg).xbhist = []
    ∧ (resetEnv xg yg).ybhist = [] :=
  ⟨rfl, rfl, rfl, rfl, rfl, rfl, rfl, rfl, rfl, rfl, rfl, rfl, rfl⟩

/-- C9: the state produced by `step` does not depend on the incoming
`omegadd` field: overwriting it with any value `w` leaves the output
unchanged (the source unpacks it to `_` and recomputes it each tick). -/
theorem step_ignores_incoming_omegadd (xg yg : ℝ) (s : StateVector)
    (T d w : ℝ) :
    step xg yg { s with omegadd := w } T d = step xg yg s T d :=
  rfl

/-- The all-zero sensor vector: every field, including both wheel-contact
points, at the origin. -/
def s0 : StateVector := ⟨0, 0, 0, 0, 0, 0, 0, 0, 0, 0, 0⟩

/-- C5: from an equilibrium state (`theta = thetad = omega = omegad = 0`)
with action `(0, 0)`, `step` computes `omegadd = 0` and `thetadd = 0`, the
`theta == 0` branch substituting `rf = rb = rCM = 1e8`. -/
theorem equilibrium_fixed_point (xg yg : ℝ) (s : StateVector)
    (h1 : s.theta = 0) (h2 : s.thetad = 0) (h3 : s.omega = 0)
    (h4 : s.omegad = 0) (h5 : s.omegadd = 0) :
    (step xg yg s 0 0).omegadd = 0 ∧ thetadd s.omegad 0 = 0
    ∧ rf s.theta = 1e8 ∧ rb s.theta = 1e8 ∧ rCM s.theta = 1e8 := by
  refine ⟨?_, ?_, ?_, ?_, ?_⟩
  · show omegadd s.theta s.thetad s.omega 0 = 0
    rw [h1, h2, h3]
    simp [omegadd, phi, sign, Real.arctan_zero]
  · rw [h4]
    simp [thetadd]
  · rw [h1]; simp [rf]
  · rw [h1]; simp [rb]
  · rw [h1]; simp [rCM]

/-- Witness for `equilibrium_fixed_point` at the deterministic reset state. -/
theorem equilibrium_fixed_point_witness :
    (step 0 10 (resetDet 0 10) 0 0).omegadd = 0
    ∧ thetadd (resetDet 0 10).omegad 0 = 0
    ∧ rf (resetDet 0 10).theta = 1e8
    ∧ rb (resetDet 0 10).theta = 1e8
    ∧ rCM (resetDet 0 10).theta = 1e8 :=
  equilibrium_fixed_point 0 10 (resetDet 0 10) rfl rfl rfl rfl rfl

/-- C8: every draw of the randomized `reset` places the front contact at
Euclidean distance exactly `L` from the rear contact (`u` is the uniform
`[0, 1)` draw scaled to the offset `u*L - 0.5*L`). -/
theorem randomized_reset_wheelbase (n1 n2 u xg yg : ℝ)
    (h0 : 0 ≤ u) (h1 : u ≤ 1) :
    Real.sqrt (((resetRand n1 n2 u xg yg).xf - (resetRand n1 n2 u xg yg).xb) ^ 2
      + ((resetRand n1 n2 u xg yg).yf - (resetRand n1 n2 u xg yg).yb) ^ 2) = L := by
  have hL : (0 : ℝ) ≤ L := by norm_num [L]
  show Real.sqrt (((0 + (u * L - 0.5 * L)) - 0) ^ 2
      + ((Real.sqrt (L ^ 2 - ((0 + (u * L - 0.5 * L)) - 0) ^ 2) + 0) - 0) ^ 2) = L
  set w : ℝ := (0 + (u * L - 0.5 * L)) - 0 with hwdef
  have hwe : w = L * (u - 0.5) := by rw [hwdef]; ring
  have hsq : (u - 0.5) ^ 2 ≤ 1 := by nlinarith
  have hw2 : 0 ≤ L ^ 2 - w ^ 2 := by
    rw [hwe]
    have hnn : 0 ≤ L ^ 2 * (1 - (u - 0.5) ^ 2) :=
      mul_nonneg (sq_nonneg L) (by linarith)
    nlinarith [hnn]
  have h2 : ((Real.sqrt (L ^ 2 - w ^ 2) + 0) - 0) = Real.sqrt (L ^ 2 - w ^ 2) := by
    ring
  rw [h2, Real.sq_sqrt hw2]
  have h3 : w ^ 2 + (L ^ 2 - w ^ 2) = L ^ 2 := by ring
  rw [h3, Real.sqrt_sq hL]

/-- Witness for `randomized_reset_wheelbase` at the middle draw `u = 1/2`. -/
theorem randomized_reset_wheelbase_witness :
    Real.sqrt (((resetRand 0 0 (1/2) 0 10).xf - (resetRand 0 0 (1/2) 0 10).xb) ^ 2
      + ((resetRand 0 0 (1/2) 0 10).yf - (resetRand 0 0 (1/2) 0 10).yb) ^ 2) = L :=
  randomized_reset_wheelbase 0 0 (1/2) 0 10 (by norm_num) (by norm_num)

/-- The clamp bound is strictly inside `(-pi/2, pi/2)`. -/
lemma clamp_lt_pi_half : (1.3963 : ℝ) < Real.pi / 2 := by
  have := Real.pi_gt_d2
  linarith

/-- Quadratic lower bound for the cosine on the clamped handlebar range. -/
lemma cos_lower {x : ℝ} (hx : |x| ≤ 1.3963) : 0.0251 ≤ Real.cos x := by
  have h1 : 1 - x ^ 2 / 2 ≤ Real.cos x := Real.one_sub_sq_div_two_le_cos
  have h2 : x ^ 2 ≤ 1.3963 ^ 2 := by
    nlinarith [abs_nonneg x, sq_abs x]
  nlinarith [h1, h2]

/-- The tangent is bounded by 40 on the clamped handlebar range. -/
lemma abs_tan_le {x : ℝ} (hx : |x| ≤ 1.3963) : |Real.tan x| ≤ 40 := by
  have hc := cos_lower hx
  have hcpos : 0 < Real.cos x := by linarith
  rw [Real.tan_eq_sin_div_cos, abs_div, abs_of_pos hcpos]
  have hs : |Real.sin x| ≤ 1 :=
    abs_le.mpr ⟨Real.neg_one_le_sin x, Real.sin_le_one x⟩
  have hd1 : |Real.sin x| / Real.cos x ≤ 1 / Real.cos x :=
    (div_le_div_right hcpos).mpr hs
  have hd2 : 1 / Real.cos x ≤ 1 / 0.0251 :=
    one_div_le_one_div_of_le (by norm_num) hc
  have : (1 : ℝ) / 0.0251 ≤ 40 := by norm_num
  linarith

/-- Bound on `v * time_step / (2 * (L / w))` for a wheel whose angle factor
`w` (`|sin theta|` or `|tan theta|`) is at most 40. -/
lemma temp0_bound (w : ℝ) (hw0 : 0 ≤ w) (hw : w ≤ 40) :
    0 ≤ v * time_step / (2 * (L / w)) ∧ v * time_step / (2 * (L / w)) ≤ 1 := by
  rcases eq_or_lt_of_le hw0 with h0 | h0
  · rw [← h0]
    norm_num
  · have hL : (0 : ℝ) < L := by norm_num [L]
    have hvt : (0 : ℝ) ≤ v * time_step := by norm_num [v, time_step]
    have hrf : 0 < L / w := div_pos hL h0
    constructor
    · exact div_nonneg hvt (by linarith)
    · rw [div_le_one (by linarith : (0 : ℝ) < 2 * (L / w))]
      have h2 : 2 * (L / w) = 2 * L / w := by ring
      rw [h2, le_div_iff h0]
      have hvt2 : v * time_step = 1 / 36 := by norm_num [v, time_step]
      rw [hvt2]
      norm_num [L]
      linarith

/-- C10: for every state with `|theta| ≤ 1.3963`, both arcsin arguments
`v * time_step / (2 * radius)` lie in `[0, 1]`, so the `temp > 1`
substitution branch is unreachable and `arcsin` is evaluated inside its
domain. -/
theorem arcsin_args_in_domain (s : StateVector) (hθ : |s.theta| ≤ 1.3963) :
    (0 ≤ front_temp0 s ∧ front_temp0 s ≤ 1)
    ∧ (0 ≤ back_temp0 s ∧ back_temp0 s ≤ 1)
    ∧ ¬ front_temp0 s > 1 ∧ ¬ back_temp0 s > 1 := by
  have hf : 0 ≤ front_temp0 s ∧ front_temp0 s ≤ 1 := by
    unfold front_temp0 rf
    split
    · norm_num [v, time_step]
    · exact temp0_bound |Real.sin s.theta| (abs_nonneg _)
        (le_trans (abs_le.mpr ⟨Real.neg_one_le_sin _, Real.sin_le_one _⟩)
          (by norm_num))
  have hb : 0 ≤ back_temp0 s ∧ back_temp0 s ≤ 1 := by
    unfold back_temp0 rb
    split
    · norm_num [v, time_step]
    · exact temp0_bound |Real.tan s.theta| (abs_nonneg _) (abs_tan_le hθ)
  exact ⟨hf, hb, not_lt.mpr hf.2, not_lt.mpr hb.2⟩

/-- Witness for `arcsin_args_in_domain` at the all-zero state. -/
theorem arcsin_args_in_domain_witness :
    (0 ≤ front_temp0 s0 ∧ front_temp0 s0 ≤ 1)
    ∧ (0 ≤ back_temp0 s0 ∧ back_temp0 s0 ≤ 1)
    ∧ ¬ front_temp0 s0 > 1 ∧ ¬ back_temp0 s0 > 1 :=
  arcsin_args_in_domain s0 (by rw [show s0.theta = 0 from rfl]; norm_num)

/-- Squaring the post-move wheelbase recovers the sum of squares. -/
lemma wheelbase_sq (s : StateVector) (T : ℝ) :
    current_wheelbase s T ^ 2
      = (xfNew s T - xbMoved s) ^ 2 + (yfNew s T - ybMoved s) ^ 2 :=
  Real.sq_sqrt (by positivity)

/-- When the drift correction fires with a nonzero wheelbase, the corrected
rear point is again at distance exactly `L` from the front point. -/
lemma corrected_dist_sq (s : StateVector) (T : ℝ)
    (hfire : |current_wheelbase s T - L| > 0.01)
    (hcw : current_wheelbase s T ≠ 0) :
    (xfNew s T - xbNew s T) ^ 2 + (yfNew s T - ybNew s T) ^ 2 = L ^ 2 := by
  have hA := wheelbase_sq s T
  unfold xbNew ybNew
  rw [if_pos hfire, if_pos hfire]
  have hx : xfNew s T
      - (xbMoved s + (xbMoved s - xfNew s T) * (L / current_wheelbase s T - 1))
      = (xfNew s T - xbMoved s) * (L / current_wheelbase s T) := by ring
  have hy : yfNew s T
      - (ybMoved s + (ybMoved s - yfNew s T) * (L / current_wheelbase s T - 1))
      = (yfNew s T - ybMoved s) * (L / current_wheelbase s T) := by ring
  rw [hx, hy]
  field_simp
  linear_combination (-(L ^ 2)) * hA

/-- When the drift correction fires at a zero wheelbase, `L / 0 = 0` in the
real model, so the rear point collapses onto the front point. -/
lemma corrected_at_zero (s : StateVector) (T : ℝ)
    (hfire : |current_wheelbase s T - L| > 0.01)
    (hcw : current_wheelbase s T = 0) :
    xbNew s T = xfNew s T ∧ ybNew s T = yfNew s T := by
  unfold xbNew ybNew
  rw [if_pos hfire, if_pos hfire, hcw, div_zero]
  constructor <;> ring

/-- C3: the drift correction fires exactly when `|wheelbase - L| > 0.01`, it
rescales the rear point by `rear += (rear - front) * (L/wheelbase - 1)`
componentwise, and after every step the deviation of the front-rear distance
from `L` is at most the larger of `0.01` and the single-step drift magnitude
`|wheelbase - L|`. -/
theorem drift_correction_invariant (xg yg : ℝ) (s : StateVector) (T d : ℝ) :
    ((step xg yg s T d).xb = xbNew s T ∧ (step xg yg s T d).yb = ybNew s T)
    ∧ (|current_wheelbase s T - L| > 0.01 →
        xbNew s T = xbMoved s
            + (xbMoved s - xfNew s T) * (L / current_wheelbase s T - 1)
        ∧ ybNew s T = ybMoved s
            + (ybMoved s - yfNew s T) * (L / current_wheelbase s T - 1))
    ∧ (¬ |current_wheelbase s T - L| > 0.01 →
        xbNew s T = xbMoved s ∧ ybNew s T = ybMoved s)
    ∧ |Real.sqrt (((step xg yg s T d).xf - (step xg yg s T d).xb) ^ 2
          + ((step xg yg s T d).yf - (step xg yg s T d).yb) ^ 2) - L|
        ≤ max 0.01 |current_wheelbase s T - L| := by
  refine ⟨⟨rfl, rfl⟩, ?_, ?_, ?_⟩
  · intro hfire
    constructor
    · unfold xbNew; rw [if_pos hfire]
    · unfold ybNew; rw [if_pos hfire]
  · intro hfire
    constructor
    · unfold xbNew; rw [if_neg hfire]
    · unfold ybNew; rw [if_neg hfire]
  · show |Real.sqrt ((xfNew s T - xbNew s T) ^ 2 + (yfNew s T - ybNew s T) ^ 2) - L|
        ≤ max 0.01 |current_wheelbase s T - L|
    by_cases hfire : |current_wheelbase s T - L| > 0.01
    · rcases eq_or_ne (current_wheelbase s T) 0 with hcw | hcw
      · obtain ⟨hxb, hyb⟩ := corrected_at_zero s T hfire hcw
        rw [hxb, hyb, hcw]
        have hz : (xfNew s T - xfNew s T) ^ 2 + (yfNew s T - yfNew s T) ^ 2
            = 0 := by ring
        rw [hz, Real.sqrt_zero]
        have hLe : |(0 : ℝ) - L| = L := by
          rw [zero_sub, abs_neg, abs_of_nonneg (by norm_num [L])]
        rw [hLe]
        exact le_max_right _ _
      · rw [corrected_dist_sq s T hfire hcw,
          Real.sqrt_sq (by norm_num [L] : (0 : ℝ) ≤ L), sub_self, abs_zero]
        exact le_trans (by norm_num) (le_max_left _ _)
    · have hxb : xbNew s T = xbMoved s := by unfold xbNew; rw [if_neg hfire]
      have hyb : ybNew s T = ybMoved s := by unfold ybNew; rw [if_neg hfire]
      rw [hxb, hyb]
      show |current_wheelbase s T - L| ≤ _
      exact le_max_right _ _

/-- On the clamped handlebar range a nonzero angle has nonzero sine. -/
lemma sin_ne_zero_of_clamped {x : ℝ} (hx : |x| ≤ 1.3963) (hx0 : x ≠ 0) :
    Real.sin x ≠ 0 := by
  have hpi := Real.pi_gt_d2
  have habs := abs_le.mp hx
  rcases lt_or_gt_of_ne hx0 with hneg | hpos
  · exact ne_of_lt (Real.sin_neg_of_neg_of_neg_pi_lt hneg (by linarith))
  · exact ne_of_gt (Real.sin_pos_of_pos_of_lt_pi hpos (by linarith))

/-- On the clamped handlebar range the cosine is positive. -/
lemma cos_pos_of_clamped {x : ℝ} (hx : |x| ≤ 1.3963) : 0 < Real.cos x := by
  have hpi := Real.pi_gt_d2
  have habs := abs_le.mp hx
  exact Real.cos_pos_of_mem_Ioo ⟨by linarith, by linarith⟩

/-- On the clamped handlebar range a nonzero angle has nonzero tangent. -/
lemma tan_ne_zero_of_clamped {x : ℝ} (hx : |x| ≤ 1.3963) (hx0 : x ≠ 0) :
    Real.tan x ≠ 0 := by
  rw [Real.tan_eq_sin_div_cos]
  exact div_ne_zero (sin_ne_zero_of_clamped hx hx0)
    (ne_of_gt (cos_pos_of_clamped hx))

/-- The front turning radius is never zero on the clamped range. -/
lemma rf_ne_zero {x : ℝ} (hx : |x| ≤ 1.3963) : rf x ≠ 0 := by
  unfold rf
  rcases eq_or_ne x 0 with h0 | h0
  · rw [if_pos h0]; norm_num
  · rw [if_neg h0]
    exact div_ne_zero (by norm_num [L])
      (abs_ne_zero.mpr (sin_ne_zero_of_clamped hx h0))

/-- The rear turning radius is never zero on the clamped range. -/
lemma rb_ne_zero {x : ℝ} (hx : |x| ≤ 1.3963) : rb x ≠ 0 := by
  unfold rb
  rcases eq_or_ne x 0 with h0 | h0
  · rw [if_pos h0]; norm_num
  · rw [if_neg h0]
    exact div_ne_zero (by norm_num [L])
      (abs_ne_zero.mpr (tan_ne_zero_of_clamped hx h0))

/-- The centre-of-mass turning radius is never zero. -/
lemma rCM_ne_zero (x : ℝ) : rCM x ≠ 0 := by
  unfold rCM
  rcases eq_or_ne x 0 with h0 | h0
  · rw [if_pos h0]; norm_num
  · rw [if_neg h0]
    refine Real.sqrt_ne_zero'.mpr ?_
    have h1 : (0 : ℝ) < (L - c) ^ 2 := by norm_num [L, c]
    have h2 : (0 : ℝ) ≤ L ^ 2 / Real.tan x ^ 2 :=
      div_nonneg (sq_nonneg _) (sq_nonneg _)
    linarith

/-- C1 (amended): on the clamped handlebar range, `step` is well defined at
every division and `arcsin` site provided the post-move wheel contact points
do not coincide (`current_wheelbase ≠ 0`) and the goal-angle branch taken has
a nonzero denominator. -/
theorem step_defined_of_nondegenerate (xg yg : ℝ) (s : StateVector) (T d : ℝ)
    (hθ : |s.theta| ≤ 1.3963)
    (hw : current_wheelbase s T ≠ 0)
    (hg1 : delta_y s T > 0 → delta_yg yg s T ≠ 0)
    (hg2 : ¬ delta_y s T > 0 → ¬ (xg = xbNew s T ∧ delta_yg yg s T < 0) →
      xbNew s T - xg ≠ 0) :
    stepDefined xg yg s T d := by
  obtain ⟨⟨hf0, hf1⟩, ⟨hb0, hb1⟩, -, -⟩ := arcsin_args_in_domain s hθ
  refine ⟨?_, by norm_num [h], by norm_num [Itot, Mc, Mp, h, dCM],
    by norm_num [Idl, Md, r], rf_ne_zero hθ, rb_ne_zero hθ, rCM_ne_zero _,
    fun _ => ⟨by linarith, hf1⟩, fun _ => ⟨by linarith, hb1⟩,
    fun _ => hw, ?_, fun hnot => ⟨hg1, fun hdy => hg2 hdy hnot⟩⟩
  · intro hth
    exact ⟨sin_ne_zero_of_clamped hθ hth, tan_ne_zero_of_clamped hθ hth⟩
  · intro hnot hdyle heq
    have hxe : xbNew s T = xfNew s T := sub_eq_zero.mp heq
    have hdy0 : delta_y s T ≤ 0 := not_lt.mp hdyle
    by_cases hfire : |current_wheelbase s T - L| > 0.01
    · have hsq := corrected_dist_sq s T hfire hw
      have hdysq : delta_y s T ^ 2 = L ^ 2 := by
        have hx0 : xfNew s T - xbNew s T = 0 := by rw [hxe]; ring
        unfold delta_y
        nlinarith [hsq, hx0]
      have hdy : delta_y s T < 0 := by
        rcases lt_or_eq_of_le hdy0 with hlt | hzero
        · exact hlt
        · exfalso
          rw [hzero] at hdysq
          norm_num [L] at hdysq
      exact hnot ⟨hxe.symm, hdy⟩
    · have hxb : xbNew s T = xbMoved s := by unfold xbNew; rw [if_neg hfire]
      have hyb : ybNew s T = ybMoved s := by unfold ybNew; rw [if_neg hfire]
      have hcwlo : 1.1 ≤ current_wheelbase s T := by
        have := abs_le.mp (not_lt.mp hfire)
        have hLv : L = 1.11 := rfl
        linarith [this.1]
      have hA := wheelbase_sq s T
      have hdysq : delta_y s T ^ 2 = current_wheelbase s T ^ 2 := by
        have hx0 : xfNew s T - xbMoved s = 0 := by
          rw [← hxb, hxe]; ring
        unfold delta_y
        rw [hyb]
        nlinarith [hA, hx0]
      have hdy : delta_y s T < 0 := by
        rcases lt_or_eq_of_le hdy0 with hlt | hzero
        · exact hlt
        · exfalso
          rw [hzero] at hdysq
          nlinarith [hdysq, hcwlo]
      exact hnot ⟨hxe.symm, hdy⟩

/-- Clipping zero to the handlebar range gives zero. -/
lemma clip_zero : clip 0 (-1.3963) 1.3963 = 0 := by
  unfold clip
  rw [max_eq_right (by norm_num : (-1.3963 : ℝ) ≤ 0),
    min_eq_right (by norm_num : (0 : ℝ) ≤ 1.3963)]

/-- The sign of zero is zero, as for `np.sign`. -/
lemma sign_zero : sign 0 = 0 := by simp [sign]

/-- With no handlebar torque the handlebar stays at zero for one tick. -/
lemma thetaNew_zero (s : StateVector) (h1 : s.theta = 0) (h2 : s.thetad = 0)
    (h3 : s.omegad = 0) : thetaNew s 0 = 0 := by
  have hdd : thetadd s.omegad 0 = 0 := by rw [h3]; simp [thetadd]
  unfold thetaNew thetaRaw thetadNew
  rw [h1, h2, hdd]
  rw [show (0 : ℝ) + (0 + 0 * time_step) * time_step = 0 by ring, clip_zero]

/-- Straight ahead (`psi = 0`, new `theta = 0`) the front angle correction
vanishes, whichever branch is taken. -/
lemma front_temp_straight (s : StateVector) (hψ : s.psi = 0)
    (hθ : thetaNew s 0 = 0) : front_temp s 0 = 0 := by
  unfold front_temp
  rw [hψ, hθ]
  split <;> simp [sign_zero]

/-- Straight ahead the rear angle correction vanishes. -/
lemma back_temp_straight (s : StateVector) (hψ : s.psi = 0) :
    back_temp s = 0 := by
  unfold back_temp
  rw [hψ]
  split <;> simp [sign_zero]

/-- Straight ahead the front wheel advances by `v * time_step` along y. -/
lemma front_pos_straight (s : StateVector) (hψ : s.psi = 0)
    (hθ : thetaNew s 0 = 0) :
    xfNew s 0 = s.xf ∧ yfNew s 0 = s.yf + v * time_step := by
  unfold xfNew yfNew
  rw [hψ, hθ, front_temp_straight s hψ hθ]
  constructor <;> simp

/-- Straight ahead the rear wheel advances by `v * time_step` along y. -/
lemma back_pos_straight (s : StateVector) (hψ : s.psi = 0) :
    xbMoved s = s.xb ∧ ybMoved s = s.yb + v * time_step := by
  unfold xbMoved ybMoved
  rw [hψ, back_temp_straight s hψ]
  constructor <;> simp

/-- Straight ahead the post-move wheelbase equals the pre-move separation. -/
lemma wheelbase_straight (s : StateVector) (hψ : s.psi = 0)
    (hθ : thetaNew s 0 = 0) :
    current_wheelbase s 0 = Real.sqrt ((s.xf - s.xb) ^ 2 + (s.yf - s.yb) ^ 2) := by
  unfold current_wheelbase
  obtain ⟨hf1, hf2⟩ := front_pos_straight s hψ hθ
  obtain ⟨hb1, hb2⟩ := back_pos_straight s hψ
  rw [hf1, hf2, hb1, hb2]
  congr 1
  ring

/-- From the all-zero state with coincident wheel contacts, the post-move
wheelbase is zero: both wheels translate identically. -/
lemma s0_wheelbase : current_wheelbase s0 0 = 0 := by
  rw [wheelbase_straight s0 rfl (thetaNew_zero s0 rfl rfl rfl)]
  show Real.sqrt (((0 : ℝ) - 0) ^ 2 + ((0 : ℝ) - 0) ^ 2) = 0
  norm_num

/-- C1 (counterexample): the claim fails as stated.  The all-zero state has
`theta` in range, yet `step` with goal `(0, 10)` and action `(0, 0)` divides
`L` by a zero wheelbase in the drift correction (in floats, `0 * inf = NaN`
then propagates into `xb`, `yb`, `psi` and `psig`). -/
theorem step_nan_free_refuted :
    |s0.theta| ≤ 1.3963 ∧ ¬ stepDefined 0 10 s0 0 0 := by
  constructor
  · show |(0 : ℝ)| ≤ 1.3963
    norm_num
  · intro hd
    obtain ⟨-, -, -, -, -, -, -, -, -, hwb, -, -⟩ := hd
    have hcw := s0_wheelbase
    have habs : |(0 : ℝ) - L| = L := by
      rw [zero_sub, abs_neg, abs_of_nonneg (by norm_num [L])]
    refine hwb ?_ hcw
    rw [hcw, habs]
    norm_num [L]

/-- The deterministic reset state has heading zero. -/
lemma resetDet_psi (xg yg : ℝ) : (resetDet xg yg).psi = 0 := by
  show Real.arctan (((0 : ℝ) - 0) / (L - 0)) = 0
  simp

/-- Geometry of one zero-action step from the deterministic reset state:
the bicycle rolls straight ahead, keeping the wheelbase at exactly `L`. -/
lemma resetDet_geometry (xg yg : ℝ) :
    thetaNew (resetDet xg yg) 0 = 0
    ∧ current_wheelbase (resetDet xg yg) 0 = L
    ∧ xbNew (resetDet xg yg) 0 = 0
    ∧ ybNew (resetDet xg yg) 0 = v * time_step
    ∧ delta_y (resetDet xg yg) 0 = L := by
  have hψ := resetDet_psi xg yg
  have hθ : thetaNew (resetDet xg yg) 0 = 0 := thetaNew_zero _ rfl rfl rfl
  have hcw : current_wheelbase (resetDet xg yg) 0 = L := by
    rw [wheelbase_straight _ hψ hθ]
    show Real.sqrt (((0 : ℝ) - 0) ^ 2 + (L - 0) ^ 2) = L
    rw [show ((0 : ℝ) - 0) ^ 2 + (L - 0) ^ 2 = L ^ 2 by ring,
      Real.sqrt_sq (by norm_num [L])]
  have hnf : ¬ |current_wheelbase (resetDet xg yg) 0 - L| > 0.01 := by
    rw [hcw, sub_self, abs_zero]
    norm_num
  obtain ⟨hb1, hb2⟩ := back_pos_straight _ hψ
  have hxb : xbNew (resetDet xg yg) 0 = 0 := by
    unfold xbNew
    rw [if_neg hnf, hb1]
    rfl
  have hyb : ybNew (resetDet xg yg) 0 = v * time_step := by
    unfold ybNew
    rw [if_neg hnf, hb2]
    show (0 : ℝ) + v * time_step = v * time_step
    rw [zero_add]
  have hdy : delta_y (resetDet xg yg) 0 = L := by
    unfold delta_y
    obtain ⟨hf1, hf2⟩ := front_pos_straight _ hψ hθ
    rw [hf2, hyb]
    show L + v * time_step - v * time_step = L
    ring
  exact ⟨hθ, hcw, hxb, hyb, hdy⟩

/-- Witness for `step_defined_of_nondegenerate`: one zero-action step from
the deterministic reset state toward the goal `(0, -10)` is well defined. -/
theorem step_defined_witness : stepDefined 0 (-10) (resetDet 0 (-10)) 0 0 := by
  obtain ⟨hθ, hcw, hxb, hyb, hdy⟩ := resetDet_geometry 0 (-10)
  apply step_defined_of_nondegenerate 0 (-10) (resetDet 0 (-10)) 0 0
  · show |(0 : ℝ)| ≤ 1.3963
    norm_num
  · rw [hcw]
    norm_num [L]
  · intro hpos
    unfold delta_yg
    rw [hyb]
    norm_num [v, time_step]
  · intro hdyle hnot
    exfalso
    rw [hdy] at hdyle
    exact hdyle (by norm_num [L])

/-- Modelled from the spec: the goal angle built by the same two-branch
arctan construction as the heading, with the goal point in place of the front
contact point — in particular with the inner branch selected by the sign of
the goal delta `delta_yg = y_goal - yb`. -/
def psigGoalAngleSpec (xg yg xb yb : ℝ) : ℝ :=
  if xg = xb ∧ yg - yb < 0 then Real.pi
  else if yg - yb > 0 then Real.arctan ((xb - xg) / (yg - yb))
  else sign (xb - xg) * (0.5 * Real.pi) - Real.arctan ((yg - yb) / (xb - xg))

/-- The goal-angle construction the source actually performs: the numerators
use the goal deltas, but the inner branch is selected by the front-rear
heading delta `delta_y`. -/
def psigGoalAngleCode (xg yg xb yb dy : ℝ) : ℝ :=
  if xg = xb ∧ yg - yb < 0 then Real.pi
  else if dy > 0 then Real.arctan ((xb - xg) / (yg - yb))
  else sign (xb - xg) * (0.5 * Real.pi) - Real.arctan ((yg - yb) / (xb - xg))

/-- The arctangent of a positive number is positive. -/
lemma arctan_pos_of {x : ℝ} (hx : 0 < x) : 0 < Real.arctan x := by
  have hmono := Real.arctan_strictMono hx
  rwa [Real.arctan_zero] at hmono

/-- C6 (amended): the goal angle subtracted from the new heading is the
two-branch construction with the goal coordinates in the numerators, but
with the inner branch selected by the sign of the front-rear delta
`delta_y = yf - yb`, not by the goal delta. -/
theorem psig_two_branch_goal (xg yg : ℝ) (s : StateVector) (T d : ℝ) :
    (step xg yg s T d).psig
      = (step xg yg s T d).psi
        - psigGoalAngleCode xg yg (xbNew s T) (ybNew s T) (delta_y s T) := by
  show psigNew xg yg s T
      = psiNew s T - psigGoalAngleCode xg yg (xbNew s T) (ybNew s T) (delta_y s T)
  unfold psigNew psigGoalAngleCode delta_yg
  split_ifs <;> ring

/-- C6 (counterexample): one zero-action step from the deterministic reset
state toward the goal `(1, -10)` lands in the `delta_y > 0` branch although
`delta_yg < 0`, so the computed `psig` differs from the spec's
`delta_yg`-branched construction. -/
theorem psig_goal_branch_refuted :
    (step 1 (-10) (resetDet 1 (-10)) 0 0).psig
      ≠ (step 1 (-10) (resetDet 1 (-10)) 0 0).psi
        - psigGoalAngleSpec 1 (-10) (xbNew (resetDet 1 (-10)) 0)
            (ybNew (resetDet 1 (-10)) 0) := by
  obtain ⟨hθ, hcw, hxb, hyb, hdy⟩ := resetDet_geometry 1 (-10)
  have hvdt : v * time_step = 1 / 36 := by norm_num [v, time_step]
  have hybv : ybNew (resetDet 1 (-10)) 0 = 1 / 36 := by rw [hyb, hvdt]
  have hc1 : ¬ ((1 : ℝ) = 0 ∧ (-10 : ℝ) - 1 / 36 < 0) :=
    fun hcon => absurd hcon.1 (by norm_num)
  have hL1 : (step 1 (-10) (resetDet 1 (-10)) 0 0).psig
      = psiNew (resetDet 1 (-10)) 0
        - Real.arctan ((0 - 1) / ((-10 : ℝ) - 1 / 36)) := by
    show psigNew 1 (-10) (resetDet 1 (-10)) 0 = _
    unfold psigNew delta_yg
    rw [hxb, hybv, hdy, if_neg hc1, if_pos (by norm_num [L] : L > 0)]
  have hR1 : psigGoalAngleSpec 1 (-10) (xbNew (resetDet 1 (-10)) 0)
        (ybNew (resetDet 1 (-10)) 0)
      = sign ((0 : ℝ) - 1) * (0.5 * Real.pi)
        - Real.arctan (((-10 : ℝ) - 1 / 36) / (0 - 1)) := by
    unfold psigGoalAngleSpec
    rw [hxb, hybv, if_neg hc1, if_neg (by norm_num : ¬ ((-10 : ℝ) - 1 / 36 > 0))]
  have hpsi : (step 1 (-10) (resetDet 1 (-10)) 0 0).psi
      = psiNew (resetDet 1 (-10)) 0 := rfl
  rw [hL1, hR1, hpsi]
  intro heq
  have hsign : sign ((0 : ℝ) - 1) = -1 := by norm_num [sign]
  rw [hsign] at heq
  have hA1 : 0 < Real.arctan ((0 - 1) / ((-10 : ℝ) - 1 / 36)) :=
    arctan_pos_of (by norm_num)
  have hB1 : 0 < Real.arctan (((-10 : ℝ) - 1 / 36) / (0 - 1)) :=
    arctan_pos_of (by norm_num)
  have hpi := Real.pi_pos
  linarith

end

end Environment
